import Mathlib

/-!
Verification of the operation lifecycle / snapshot-undo orchestration engine of the
excel_agent repository: a shallow embedding of the relevant Rust code (src/models.rs,
src/services/python.rs, src/main.rs, src/components/chat_view.rs) together with
theorems settling the frozen claims about it.
-/

set_option maxHeartbeats 1000000

/-- Status of one operation record, from the enum ActionStatus in src/models.rs. -/
inductive ActionStatus where
  | none
  | loading
  | waitingConfirmation
  | running
  | success
  | error (msg : String)
  | cancelled
  | undone
  deriving DecidableEq, Repr

/-- One chat message / operation record, from the struct ChatMessage in src/models.rs;
only the fields the lifecycle engine reads or writes are modelled. -/
structure ChatMessage where
  id : Nat
  text : String
  status : ActionStatus
  pending_code : Option String
  backup_paths : Option (List (String × String))
  deriving DecidableEq, Repr

/-- Keyword blacklist scanned over the lowercased stdout buffer, from the
error_keywords array in run_python_code (src/services/python.rs). -/
def error_keywords : List String :=
  ["error:", "exception:", "traceback (most", "failed to",
   "attributeerror", "keyerror", "valueerror", "not found", "❌"]

/-- Boolean infix test on character lists: model of Rust str::contains. -/
def infixOfB (pat : List Char) : List Char → Bool
  | [] => pat.isEmpty
  | c :: rest => pat.isPrefixOf (c :: rest) || infixOfB pat rest

/-- Rust String::contains: substring containment. -/
def strContains (s pat : String) : Bool :=
  infixOfB pat.data s.data

/-- ASCII lowering of one character (the keyword sets are ASCII). -/
def charToLower (c : Char) : Char :=
  if 65 ≤ c.toNat ∧ c.toNat ≤ 90 then Char.ofNat (c.toNat + 32) else c

/-- Model of Rust str::to_lowercase, character by character. -/
def rustToLowercase (s : String) : String :=
  String.mk (s.data.map charToLower)

/-- Whitespace test used by trimming. -/
def isWsChar (c : Char) : Bool :=
  c = (' ') || c = ('\t') || c = ('\n') || c = ('\r')

/-- Model of Rust str::trim: strip whitespace from both ends. -/
def rustTrim (s : String) : String :=
  String.mk ((((s.data.dropWhile isWsChar).reverse).dropWhile isWsChar).reverse)

deriving instance DecidableEq for Except

/-- Stdout scan of run_python_code (src/services/python.rs): if the lowercased stdout
buffer contains any blacklisted keyword the run is a failure, with the stdout buffer
itself as diagnostic; otherwise the run succeeds with the stdout buffer as output. -/
def scanStdout (stdout_str : String) : Except String String :=
  if error_keywords.any (fun kw => strContains (rustToLowercase stdout_str) kw) then
    Except.error stdout_str
  else
    Except.ok stdout_str

/-- Stderr keyword test of run_python_code (src/services/python.rs, case B). -/
def stderrHasKeyword (s : String) : Bool :=
  strContains (rustToLowercase s) ("error") ||
    strContains (rustToLowercase s) ("exception") ||
    strContains (rustToLowercase s) ("traceback")

/-- Classification logic of run_python_code (src/services/python.rs): hard interpreter
failure first, then the stderr keyword branch, then the stdout keyword scan. -/
def classifyRun (runErr : Option String) (stdout_str stderr_str : String) :
    Except String String :=
  match runErr with
  | Option.none =>
      if !(rustTrim stderr_str).isEmpty && stderrHasKeyword stderr_str then
        Except.error (("⚠️ Detected Error in Stderr:\n") ++ stderr_str)
      else
        scanStdout stdout_str
  | Option.some e =>
      Except.error (("🐍 Runtime Exception:\n") ++ e ++ ("\n\n📝 Stderr Trace:\n") ++ stderr_str)

/-- The two output streams a Python script can write to. -/
inductive PyStream where
  | stdout
  | stderr
  deriving DecidableEq, Repr

/-- The two capture buffers allocated by run_python_code (stdout_capture and
stderr_capture, src/services/python.rs). -/
structure CaptureState where
  stdout_capture : String
  stderr_capture : String
  deriving DecidableEq, Repr

/-- Routing installed by run_python_code before executing the script: sys.stdout is set
to stdout_capture and sys.stderr is also set to stdout_capture (src/services/python.rs),
so a write on either stream lands in the stdout capture buffer. -/
def routeWrite (st : CaptureState) : PyStream × String → CaptureState
  | (PyStream.stdout, t) => { st with stdout_capture := st.stdout_capture ++ t }
  | (PyStream.stderr, t) => { st with stdout_capture := st.stdout_capture ++ t }

/-- Contents of the two capture buffers after the script performed its writes. -/
def runCaptures (writes : List (PyStream × String)) : CaptureState :=
  writes.foldl routeWrite { stdout_capture := (""), stderr_capture := ("") }

/-- Concatenation of everything the script wrote, on either stream, in order. -/
def combinedOutput (writes : List (PyStream × String)) : String :=
  writes.foldl (fun acc w => acc ++ w.snd) ("")

/-- Model of run_python_code (src/services/python.rs): a script is described by its
ordered stream writes plus an optional hard interpreter error; the captures are
collected through the installed routing and then classified. -/
def run_python_code (writes : List (PyStream × String)) (runErr : Option String) :
    Except String String :=
  classifyRun runErr (runCaptures writes).stdout_capture (runCaptures writes).stderr_capture

/-- Path separator test (Rust paths may use either separator). -/
def isSepChar (c : Char) : Bool :=
  c = ('/') || c = ('\\')

/-- Split a character list at path separators. -/
def splitPath : List Char → List (List Char)
  | [] => [[]]
  | c :: rest =>
      let r := splitPath rest
      if isSepChar c then [] :: r
      else
        match r with
        | [] => [[c]]
        | seg :: segs => (c :: seg) :: segs

/-- Final path component: model of Rust Path::file_name (the last non-empty segment). -/
def fileName (path : String) : String :=
  String.mk (((splitPath path.data).filter (fun seg => !seg.isEmpty)).getLastD [])

/-- Backup file name built by create_batch_backups (src/services/python.rs): the
original file name, a dot, the capture timestamp in milliseconds, and ".bak". -/
def backup_filename (path : String) (timestamp : Nat) : String :=
  fileName path ++ (".") ++ Nat.repr timestamp ++ (".bak")

/-- Full backup path: the backup directory joined with the backup file name. -/
def backup_path (backup_dir path : String) (timestamp : Nat) : String :=
  backup_dir ++ ("/") ++ backup_filename path timestamp

/-- create_batch_backups (src/services/python.rs): one timestamp is taken for the whole
batch; a pair is recorded exactly for the files whose snapshot attempt succeeded
(snapshotOk abstracts the xlwings/shutil copy together with the existence check). -/
def create_batch_backups (backup_dir : String) (timestamp : Nat)
    (target_paths : List String) (snapshotOk : String → Bool) :
    List (String × String) :=
  target_paths.filterMap (fun path =>
    if snapshotOk path then Option.some (path, backup_path backup_dir path timestamp)
    else Option.none)

/-- Retry bound MAX_RETRIES from src/main.rs. -/
def MAX_RETRIES : Nat := 3

/-- Backup phase of on_confirm (src/main.rs): has_existing_backup is read from the
record; when it is set, no new backup is taken and the stored snapshot pairs are kept;
otherwise a batch backup runs (over the active files, when any) and its result is stored
only when non-empty. The Bool reports whether a new backup pass was performed. -/
def on_confirm_backup (prior : Option (List (String × String)))
    (current_files : List String) (backup_dir : String) (timestamp : Nat)
    (snapshotOk : String → Bool) : Option (List (String × String)) × Bool :=
  if prior.isSome then (prior, false)
  else
    let backups :=
      if current_files.isEmpty then []
      else create_batch_backups backup_dir timestamp current_files snapshotOk
    (if backups.isEmpty then prior else Option.some backups, true)

/-- Outcome of processing one execution result inside on_confirm (src/main.rs). -/
structure ExecOutcome where
  msg : ChatMessage
  retry_count : Nat
  error_fix : Bool
  repair_note : Option (Nat × Nat)
  deriving DecidableEq, Repr

/-- Result phase of on_confirm (src/main.rs): on Ok the record becomes Success, the
output is appended and the retry counter resets; on Err the record becomes Error with
the diagnostic appended, and while the retry counter is below MAX_RETRIES a numbered
repair note is appended and error_fix_signal is set (error_fix), which triggers the
automatic re-run; at the bound a terminal note is appended and the counter resets. -/
def applyExecResult (m : ChatMessage) (retry_count : Nat) (res : Except String String) :
    ExecOutcome :=
  match res with
  | Except.ok out =>
      { msg := { m with
                   status := ActionStatus.success,
                   text := m.text ++ ("\n\n✨ 结果:\n") ++ out },
        retry_count := 0, error_fix := false, repair_note := Option.none }
  | Except.error e =>
      let m1 : ChatMessage :=
        { m with status := ActionStatus.error e, text := m.text ++ ("\n\n❌ 错误:\n") ++ e }
      if retry_count < MAX_RETRIES then
        { msg := { m1 with text := m1.text ++ ("\n\n🔄 自动修复中 (尝试 ") ++
                     Nat.repr (retry_count + 1) ++ ("/") ++ Nat.repr MAX_RETRIES ++ (")...") },
          retry_count := retry_count + 1, error_fix := true,
          repair_note := Option.some (retry_count + 1, MAX_RETRIES) }
      else
        { msg := { m1 with text := m1.text ++ ("\n\n🛑 已达到最大重试次数 (") ++
                     Nat.repr MAX_RETRIES ++ (")，停止自动修复。") },
          retry_count := 0, error_fix := false, repair_note := Option.none }

/-- Result of a chain of consecutive executions of one operation. -/
structure ChainResult where
  msg : ChatMessage
  retry_count : Nat
  repair_notes : List (Nat × Nat)
  executions : Nat
  deriving DecidableEq, Repr

/-- A chain of executions of one operation each of which fails with diagnostic e: every
run goes through applyExecResult, and while error_fix is set the next automatic run
follows. The counter/bound/status logic is the on_confirm error branch of src/main.rs;
the hop from error_fix_signal back to a new run is the auto-repair wiring the spec
describes for the Retry Controller (the regeneration consumer is not part of the
orchestration code modelled here). Collects the announced repair-note numbers and the
total number of executions. -/
def autoRepairChain (e : String) : Nat → ChatMessage → Nat → ChainResult
  | 0, m, c => { msg := m, retry_count := c, repair_notes := [], executions := 0 }
  | fuel + 1, m, c =>
      let o := applyExecResult m c (Except.error e)
      if o.error_fix then
        let r := autoRepairChain e fuel o.msg o.retry_count
        { msg := r.msg, retry_count := r.retry_count,
          repair_notes := o.repair_note.toList ++ r.repair_notes,
          executions := r.executions + 1 }
      else
        { msg := o.msg, retry_count := o.retry_count,
          repair_notes := o.repair_note.toList, executions := 1 }

/-- Modify the list element at an index, when present. -/
def updateAt (i : Nat) (f : ChatMessage → ChatMessage) : List ChatMessage → List ChatMessage
  | [] => []
  | m :: rest =>
      match i with
      | 0 => f m :: rest
      | j + 1 => m :: updateAt j f rest

/-- on_cancel (src/main.rs): the record becomes Cancelled and its pending code is
cleared (the retry counter reset is modelled in the event step). -/
def on_cancel (msgs : List ChatMessage) (i : Nat) : List ChatMessage :=
  updateAt i
    (fun m => { m with
                  status := ActionStatus.cancelled,
                  pending_code := Option.none })
    msgs

/-- Statuses the undo cascade forces to Undone (src/main.rs, the matches! test):
Success and Running. -/
def isCascadable : ActionStatus → Bool
  | ActionStatus.success => true
  | ActionStatus.running => true
  | _ => false

/-- Per-record transformation of the undo cascade loop (src/main.rs): any record at an
index at or past the target whose status is Success or Running becomes Undone; the
target itself gets the restore log (or the restore error) appended, later records get
the invalidation note. All other records are untouched. -/
def undoTransform (target : Nat) (res : Except String String) (i : Nat)
    (m : ChatMessage) : ChatMessage :=
  if target ≤ i ∧ isCascadable m.status = true then
    { m with
        status := ActionStatus.undone,
        text := m.text ++
          (if i = target then
            match res with
            | Except.ok log => ("\n\n") ++ log
            | Except.error e => ("\n❌ 撤销出错: ") ++ e
           else ("\n(因回溯已失效)")) }
  else m

/-- The cascade loop of on_undo applied from absolute index i onward. -/
def cascadeFrom (target : Nat) (res : Except String String) :
    Nat → List ChatMessage → List ChatMessage
  | _, [] => []
  | i, m :: rest => undoTransform target res i m :: cascadeFrom target res (i + 1) rest

/-- on_undo (src/main.rs): read the target record's backup_paths; when absent nothing
happens at all; otherwise the batch restore runs on those pairs (its outcome res is a
parameter, the restore itself being the external bridge call) and the cascade loop
rewrites the list. Also returns the pairs the restore was invoked on, or Option.none
when no restore ran. -/
def on_undo (msgs : List ChatMessage) (target : Nat) (res : Except String String) :
    List ChatMessage × Option (List (String × String)) :=
  match (msgs.get? target).bind (fun m => m.backup_paths) with
  | Option.none => (msgs, Option.none)
  | Option.some pairs => (cascadeFrom target res 0 msgs, Option.some pairs)

/-- Whether bottom_actions renders an execute button for a record
(src/components/chat_view.rs): while awaiting confirmation, and again as the retry
button when the record is in Error. -/
def showsConfirmButton (m : ChatMessage) : Bool :=
  match m.status with
  | ActionStatus.waitingConfirmation => true
  | ActionStatus.error _ => true
  | _ => false

/-- Whether bottom_actions renders the cancel button (src/components/chat_view.rs):
only while awaiting confirmation. -/
def showsCancelButton (m : ChatMessage) : Bool :=
  match m.status with
  | ActionStatus.waitingConfirmation => true
  | _ => false

/-- Whether bottom_actions renders the undo button (src/components/chat_view.rs): only
on Success, and only when backup_paths is present. -/
def showsUndoButton (m : ChatMessage) : Bool :=
  match m.status with
  | ActionStatus.success => m.backup_paths.isSome
  | _ => false

/-- Events deliverable through the exposed callbacks: execute clicks (manual, or the
automatic repair re-run triggered by error_fix_signal), cancel, undo together with the
batch-restore outcome, and completion of an in-flight execution together with the
classifier outcome (src/main.rs and src/components/chat_view.rs). -/
inductive Event where
  | confirm (i : Nat) (manual : Bool)
  | cancel (i : Nat)
  | undo (i : Nat) (res : Except String String)
  | complete (i : Nat) (res : Except String String)

/-- The orchestration state mutated by the callbacks: the message list, the shared retry
counter, and the indices whose execution was started and has not yet completed. -/
structure AppState where
  messages : List ChatMessage
  retry_count : Nat
  pendingExec : List Nat

/-- Statuses an in-flight execution's record can have: Running from its own confirm, or
Undone when an earlier undo cascaded over it while it ran. -/
def statusPendingOk : ActionStatus → Bool
  | ActionStatus.running => true
  | ActionStatus.undone => true
  | _ => false

/-- Invariant of the event model: every in-flight execution belongs to an existing
record that is Running or was cascade-invalidated to Undone while running. -/
def pendingOk (s : AppState) : Bool :=
  s.pendingExec.all (fun i =>
    match s.messages.get? i with
    | Option.some m => statusPendingOk m.status
    | Option.none => false)

/-- Which events the UI surface and the runtime expose in a given state: the buttons
bottom_actions renders (src/components/chat_view.rs) and, for completion, an actually
in-flight execution. -/
def enabledE (s : AppState) : Event → Bool
  | Event.confirm i _ =>
      match s.messages.get? i with
      | Option.some m => showsConfirmButton m
      | Option.none => false
  | Event.cancel i =>
      match s.messages.get? i with
      | Option.some m => showsCancelButton m
      | Option.none => false
  | Event.undo i _ =>
      match s.messages.get? i with
      | Option.some m => showsUndoButton m
      | Option.none => false
  | Event.complete i _ => s.pendingExec.contains i

/-- One callback firing (src/main.rs): confirm sets the record Running when it holds
pending code (and, when manual, resets the retry counter); cancel goes through
on_cancel and resets the counter; undo goes through on_undo; completion applies the
execution-result phase and clears the in-flight mark. -/
def stepEvent (s : AppState) : Event → AppState
  | Event.confirm i manual =>
      let rc := if manual then 0 else s.retry_count
      match s.messages.get? i with
      | Option.some m =>
          if m.pending_code.isSome then
            { messages := updateAt i (fun m0 => { m0 with status := ActionStatus.running })
                s.messages,
              retry_count := rc,
              pendingExec := i :: s.pendingExec }
          else { s with retry_count := rc }
      | Option.none => { s with retry_count := rc }
  | Event.cancel i =>
      { messages := on_cancel s.messages i, retry_count := 0, pendingExec := s.pendingExec }
  | Event.undo i res =>
      { s with messages := (on_undo s.messages i res).1 }
  | Event.complete i res =>
      match s.messages.get? i with
      | Option.some m =>
          let o := applyExecResult m s.retry_count res
          { messages := updateAt i (fun _ => o.msg) s.messages,
            retry_count := o.retry_count,
            pendingExec := s.pendingExec.erase i }
      | Option.none => { s with pendingExec := s.pendingExec.erase i }

/-- The status edges of spec section 4.5. -/
def specEdge : ActionStatus → ActionStatus → Bool
  | ActionStatus.waitingConfirmation, ActionStatus.running => true
  | ActionStatus.running, ActionStatus.success => true
  | ActionStatus.running, ActionStatus.error _ => true
  | ActionStatus.waitingConfirmation, ActionStatus.cancelled => true
  | ActionStatus.success, ActionStatus.undone => true
  | ActionStatus.error _, ActionStatus.running => true
  | _, _ => false

/-- The status edges the code actually takes: the section 4.5 edges plus cascade
invalidation of a Running record and late completion (Success or Error) of an execution
whose record was cascaded to Undone while it ran. -/
def codeEdge (a b : ActionStatus) : Bool :=
  specEdge a b ||
    (match a, b with
     | ActionStatus.running, ActionStatus.undone => true
     | ActionStatus.undone, ActionStatus.success => true
     | ActionStatus.undone, ActionStatus.error _ => true
     | _, _ => false)

/-- Numeric value of a decimal digit character. -/
def charDigitVal (c : Char) : Nat := c.toNat - 48

/-- Decimal value of a digit-character list, most significant first. -/
def digitsVal (l : List Char) : Nat :=
  l.foldl (fun a c => a * 10 + charDigitVal c) 0

/-- Modelled from the spec: the keyword set the spec names for the soft-failure scan of
the normal-output buffer (the bare keywords error, exception, traceback, failed plus the
domain markers "not found" and the failure glyph). Spec-side definition, used only to
compare the spec wording against the source classifier. -/
def specSoftFailure (out : String) : Bool :=
  [("error"), ("exception"), ("traceback"), ("failed"), ("not found"), ("❌")].any
    (fun kw => strContains (rustToLowercase out) kw)

/-- Reading back an index after updateAt. -/
theorem get?_updateAt (f : ChatMessage → ChatMessage) :
    ∀ (l : List ChatMessage) (i j : Nat),
      (updateAt i f l).get? j = if i = j then (l.get? j).map f else l.get? j
  | [], i, j => by
      cases i <;> simp [updateAt]
  | m :: rest, 0, 0 => by
      simp [updateAt]
  | m :: rest, 0, j + 1 => by
      simp [updateAt]
  | m :: rest, i + 1, 0 => by
      simp [updateAt]
  | m :: rest, i + 1, j + 1 => by
      simpa [updateAt] using get?_updateAt f rest i j

/-- Reading back an index after the cascade loop. -/
theorem get?_cascadeFrom (t : Nat) (res : Except String String) :
    ∀ (l : List ChatMessage) (k j : Nat),
      (cascadeFrom t res k l).get? j = (l.get? j).map (undoTransform t res (k + j))
  | [], k, j => by simp [cascadeFrom]
  | m :: rest, k, 0 => by simp [cascadeFrom]
  | m :: rest, k, j + 1 => by
      show (cascadeFrom t res (k + 1) rest).get? j =
        (rest.get? j).map (undoTransform t res (k + (j + 1)))
      have hk : k + (j + 1) = (k + 1) + j := by omega
      rw [hk]
      exact get?_cascadeFrom t res rest (k + 1) j

/-- Shifting the accumulator of the output-concatenation fold. -/
theorem foldl_append_shift :
    ∀ (l : List (PyStream × String)) (a : String),
      l.foldl (fun acc x => acc ++ x.snd) a = a ++ combinedOutput l
  | [], a => by simp [combinedOutput]
  | x :: xs, a => by
      simp only [List.foldl_cons, combinedOutput]
      rw [foldl_append_shift xs (a ++ x.snd), foldl_append_shift xs (("") ++ x.snd)]
      simp [String.append_assoc]

/-- The stdout capture collects every write of the script in order, and the separately
allocated stderr capture is never written. -/
theorem foldl_routeWrite :
    ∀ (writes : List (PyStream × String)) (st : CaptureState),
      (writes.foldl routeWrite st).stderr_capture = st.stderr_capture ∧
      (writes.foldl routeWrite st).stdout_capture = st.stdout_capture ++ combinedOutput writes
  | [], st => by simp [combinedOutput]
  | (tag, t) :: rest, st => by
      have h := foldl_routeWrite rest (routeWrite st (tag, t))
      have hr : routeWrite st (tag, t) =
          { st with stdout_capture := st.stdout_capture ++ t } := by
        cases tag <;> rfl
      have hco : combinedOutput ((tag, t) :: rest) = t ++ combinedOutput rest := by
        simp only [combinedOutput, List.foldl_cons]
        rw [foldl_append_shift]
        simp [combinedOutput]
      constructor
      · rw [List.foldl_cons, h.1, hr]
      · rw [List.foldl_cons, h.2, hr, hco]
        show st.stdout_capture ++ t ++ (combinedOutput rest)
            = st.stdout_capture ++ (t ++ combinedOutput rest)
        rw [String.append_assoc]

/-- The captures of a run: stderr reads back empty, stdout holds the combined writes. -/
theorem runCaptures_spec (writes : List (PyStream × String)) :
    (runCaptures writes).stderr_capture = ("") ∧
    (runCaptures writes).stdout_capture = combinedOutput writes := by
  have h := foldl_routeWrite writes { stdout_capture := (""), stderr_capture := ("") }
  simpa [runCaptures] using h


/-- digitChar is inverted by charDigitVal on decimal digits. -/
theorem charDigitVal_digitChar (d : Nat) (h : d < 10) :
    charDigitVal (Nat.digitChar d) = d := by
  interval_cases d <;> rfl

/-- toDigitsCore only prepends to its accumulator. -/
theorem toDigitsCore_accumulates (b : Nat) :
    ∀ (fuel n : Nat) (ds : List Char),
      Nat.toDigitsCore b fuel n ds = Nat.toDigitsCore b fuel n [] ++ ds
  | 0, n, ds => by simp [Nat.toDigitsCore]
  | fuel + 1, n, ds => by
      simp only [Nat.toDigitsCore]
      by_cases h : n / b = 0
      · simp [h]
      · simp only [h, if_false]
        rw [toDigitsCore_accumulates b fuel (n / b) [Nat.digitChar (n % b)],
          toDigitsCore_accumulates b fuel (n / b)
            (Nat.digitChar (n % b) :: ds)]
        simp

/-- Appending one digit multiplies the value by ten and adds the digit. -/
theorem digitsVal_append_digit (l : List Char) (c : Char) :
    digitsVal (l ++ [c]) = digitsVal l * 10 + charDigitVal c := by
  simp [digitsVal]

/-- Evaluating the digits of n recovers n, given enough fuel. -/
theorem digitsVal_toDigitsCore :
    ∀ (fuel n : Nat), n < 10 ^ fuel →
      digitsVal (Nat.toDigitsCore 10 fuel n []) = n
  | 0, n, h => by
      simp only [Nat.pow_zero, Nat.lt_one_iff] at h
      subst h
      simp [Nat.toDigitsCore, digitsVal]
  | fuel + 1, n, h => by
      simp only [Nat.toDigitsCore]
      by_cases h0 : n / 10 = 0
      · have hn : n < 10 := by omega
        simp only [h0, if_true, digitsVal, List.foldl_cons, List.foldl_nil]
        rw [charDigitVal_digitChar (n % 10) (by omega)]
        omega
      · simp only [h0, if_false]
        rw [toDigitsCore_accumulates, digitsVal_append_digit]
        have hdiv : n / 10 < 10 ^ fuel := by
          rw [Nat.div_lt_iff_lt_mul (by norm_num : 0 < 10)]
          calc n < 10 ^ (fuel + 1) := h
            _ = 10 ^ fuel * 10 := by ring
        rw [digitsVal_toDigitsCore fuel (n / 10) hdiv,
          charDigitVal_digitChar (n % 10) (by omega)]
        omega

/-- The decimal representation of a natural number determines it. -/
theorem natRepr_inj (m n : Nat) (h : Nat.repr m = Nat.repr n) : m = n := by
  have hd : Nat.toDigits 10 m = Nat.toDigits 10 n := by
    have := congrArg String.data h
    simpa [Nat.repr, List.asString] using this
  have hm : m < 10 ^ (m + 1) := by
    calc m < 10 ^ m := Nat.lt_pow_self (by norm_num) m
      _ ≤ 10 ^ (m + 1) := Nat.pow_le_pow_right (by norm_num) (by omega)
  have hn : n < 10 ^ (n + 1) := by
    calc n < 10 ^ n := Nat.lt_pow_self (by norm_num) n
      _ ≤ 10 ^ (n + 1) := Nat.pow_le_pow_right (by norm_num) (by omega)
  have h1 := digitsVal_toDigitsCore (m + 1) m hm
  have h2 := digitsVal_toDigitsCore (n + 1) n hn
  rw [← h1, ← h2]
  simp only [Nat.toDigits] at hd
  rw [hd]

/-- Cancel a shared suffix of string appends. -/
theorem string_append_right_cancel (a b c : String) (h : a ++ c = b ++ c) : a = b := by
  have hd := congrArg String.data h
  simp only [String.data_append] at hd
  exact String.ext (List.append_cancel_right hd)

/-- Cancel a shared prefix of string appends. -/
theorem string_append_left_cancel (a b c : String) (h : c ++ a = c ++ b) : a = b := by
  have hd := congrArg String.data h
  simp only [String.data_append] at hd
  exact String.ext (List.append_cancel_left hd)

/-- The boolean infix test agrees with list infix. -/
theorem infixOfB_iff (pat : List Char) :
    ∀ (l : List Char), infixOfB pat l = true ↔ pat <:+: l
  | [] => by
      simp [infixOfB, List.isEmpty_iff, List.infix_nil]
  | c :: rest => by
      simp only [infixOfB, Bool.or_eq_true, List.isPrefixOf_iff_prefix,
        infixOfB_iff pat rest, List.infix_cons_iff]

/-- A substring of s is a substring of any extension of s on either side. -/
theorem strContains_append (a s b pat : String)
    (h : strContains s pat = true) : strContains ((a ++ s) ++ b) pat = true := by
  simp only [strContains, infixOfB_iff] at *
  have : s.data <:+: (a.data ++ s.data ++ b.data) := List.infix_append _ _ _
  have h2 : pat.data <:+: (a.data ++ s.data ++ b.data) := h.trans this
  simpa [String.data_append] using h2

/-- C1: confirming a record whose backup_paths is already set performs no new backup
pass and leaves the stored snapshot pairs unchanged, and a later undo of that record
invokes the restore on exactly those originally stored pairs. -/
theorem snapshot_written_at_most_once
    (l : List (String × String)) (files : List String) (dir : String) (ts : Nat)
    (ok : String → Bool) (msgs : List ChatMessage) (target : Nat) (m : ChatMessage)
    (res : Except String String)
    (hm : msgs.get? target = Option.some m) (hb : m.backup_paths = Option.some l) :
    on_confirm_backup (Option.some l) files dir ts ok = (Option.some l, false) ∧
    (on_undo msgs target res).2 = Option.some l := by
  constructor
  · simp [on_confirm_backup]
  · have hbind : (msgs.get? target).bind (fun m0 => m0.backup_paths) = Option.some l := by
      rw [hm]; simpa using hb
    unfold on_undo
    rw [hbind]

/-- C1 witness at a concrete record that already holds one snapshot pair. -/
theorem snapshot_written_at_most_once_witness :
    (([⟨0, (""), ActionStatus.success, Option.none, Option.some [(("o"), ("b"))]⟩] :
        List ChatMessage).get? 0 =
      Option.some ⟨0, (""), ActionStatus.success, Option.none, Option.some [(("o"), ("b"))]⟩) ∧
    on_confirm_backup (Option.some [(("o"), ("b"))]) [("f")] ("backups") 7 (fun _ => true) =
      (Option.some [(("o"), ("b"))], false) ∧
    (on_undo [⟨0, (""), ActionStatus.success, Option.none, Option.some [(("o"), ("b"))]⟩] 0
        (Except.ok ("log"))).2 = Option.some [(("o"), ("b"))] := by
  refine ⟨rfl, ?_⟩
  exact snapshot_written_at_most_once [(("o"), ("b"))] [("f")] ("backups") 7 (fun _ => true)
    [⟨0, (""), ActionStatus.success, Option.none, Option.some [(("o"), ("b"))]⟩] 0
    ⟨0, (""), ActionStatus.success, Option.none, Option.some [(("o"), ("b"))]⟩
    (Except.ok ("log")) rfl rfl

/-- C2: after an undo of target that actually restored (the target held snapshot
pairs), every record strictly later than target whose status was Success or Running is
Undone with the invalidation note appended, and every other later record is completely
unchanged. -/
theorem undo_cascade_later_records
    (msgs : List ChatMessage) (target : Nat) (res : Except String String)
    (pairs : List (String × String)) (i : Nat) (m mi : ChatMessage)
    (hm : msgs.get? target = Option.some m) (hb : m.backup_paths = Option.some pairs)
    (hi : target < i) (hmi : msgs.get? i = Option.some mi) :
    (on_undo msgs target res).1.get? i =
      Option.some
        (if isCascadable mi.status = true then
          { mi with
              status := ActionStatus.undone,
              text := mi.text ++ ("\n(因回溯已失效)") }
         else mi) := by
  have hbind : (msgs.get? target).bind (fun m0 => m0.backup_paths) =
      Option.some pairs := by
    rw [hm]; simpa using hb
  unfold on_undo
  rw [hbind]
  show (cascadeFrom target res 0 msgs).get? i = _
  rw [get?_cascadeFrom, hmi]
  show Option.some (undoTransform target res (0 + i) mi) = _
  congr 1
  simp only [undoTransform, Nat.zero_add]
  by_cases hc : isCascadable mi.status = true
  · rw [if_pos ⟨Nat.le_of_lt hi, hc⟩, if_pos hc, if_neg (by omega : ¬ i = target)]
  · rw [if_neg (fun hand => hc hand.2), if_neg hc]

/-- C2 witness: the section 8 scenario with records A Success (with a snapshot),
B Success, C Error; undoing A cascades B to Undone and leaves C untouched. -/
theorem undo_cascade_later_records_witness :
    (([⟨0, ("a"), ActionStatus.success, Option.none, Option.some [(("f"), ("fb"))]⟩,
       ⟨1, ("b"), ActionStatus.success, Option.none, Option.none⟩,
       ⟨2, ("c"), ActionStatus.error ("x"), Option.none, Option.none⟩] :
        List ChatMessage).get? 0 =
      Option.some ⟨0, ("a"), ActionStatus.success, Option.none,
        Option.some [(("f"), ("fb"))]⟩) ∧
    (on_undo [⟨0, ("a"), ActionStatus.success, Option.none, Option.some [(("f"), ("fb"))]⟩,
       ⟨1, ("b"), ActionStatus.success, Option.none, Option.none⟩,
       ⟨2, ("c"), ActionStatus.error ("x"), Option.none, Option.none⟩] 0
        (Except.ok ("L"))).1.get? 1 =
      Option.some ⟨1, ("b") ++ ("\n(因回溯已失效)"), ActionStatus.undone,
        Option.none, Option.none⟩ ∧
    (on_undo [⟨0, ("a"), ActionStatus.success, Option.none, Option.some [(("f"), ("fb"))]⟩,
       ⟨1, ("b"), ActionStatus.success, Option.none, Option.none⟩,
       ⟨2, ("c"), ActionStatus.error ("x"), Option.none, Option.none⟩] 0
        (Except.ok ("L"))).1.get? 2 =
      Option.some ⟨2, ("c"), ActionStatus.error ("x"), Option.none, Option.none⟩ := by
  refine ⟨rfl, ?_, ?_⟩
  · have h := undo_cascade_later_records
      [⟨0, ("a"), ActionStatus.success, Option.none, Option.some [(("f"), ("fb"))]⟩,
       ⟨1, ("b"), ActionStatus.success, Option.none, Option.none⟩,
       ⟨2, ("c"), ActionStatus.error ("x"), Option.none, Option.none⟩] 0
      (Except.ok ("L")) [(("f"), ("fb"))] 1
      ⟨0, ("a"), ActionStatus.success, Option.none, Option.some [(("f"), ("fb"))]⟩
      ⟨1, ("b"), ActionStatus.success, Option.none, Option.none⟩
      rfl rfl (by omega) rfl
    exact h
  · have h := undo_cascade_later_records
      [⟨0, ("a"), ActionStatus.success, Option.none, Option.some [(("f"), ("fb"))]⟩,
       ⟨1, ("b"), ActionStatus.success, Option.none, Option.none⟩,
       ⟨2, ("c"), ActionStatus.error ("x"), Option.none, Option.none⟩] 0
      (Except.ok ("L")) [(("f"), ("fb"))] 2
      ⟨0, ("a"), ActionStatus.success, Option.none, Option.some [(("f"), ("fb"))]⟩
      ⟨2, ("c"), ActionStatus.error ("x"), Option.none, Option.none⟩
      rfl rfl (by omega) rfl
    exact h

/-- C3: with the bound at 3, a confirm whose every execution fails runs exactly 3
automatic repair cycles numbered 1/3, 2/3, 3/3, performs 4 executions in total, stops
after the 4th consecutive failure (ample fuel remains yet no further run is triggered),
leaves the record in Error with the diagnostic, and resets the counter; on a concrete
record the numbered repair notes are visible in the accumulated log text. -/
theorem retry_bound_exactly_three_repairs (e : String) (m : ChatMessage) :
    (autoRepairChain e 10 m 0).repair_notes = [(1, 3), (2, 3), (3, 3)] ∧
    (autoRepairChain e 10 m 0).executions = 4 ∧
    (autoRepairChain e 10 m 0).retry_count = 0 ∧
    (autoRepairChain e 10 m 0).msg.status = ActionStatus.error e ∧
    strContains (autoRepairChain ("KeyError") 10
      ⟨0, (""), ActionStatus.running, Option.none, Option.none⟩ 0).msg.text
      ("(尝试 1/3)") = true ∧
    strContains (autoRepairChain ("KeyError") 10
      ⟨0, (""), ActionStatus.running, Option.none, Option.none⟩ 0).msg.text
      ("(尝试 2/3)") = true ∧
    strContains (autoRepairChain ("KeyError") 10
      ⟨0, (""), ActionStatus.running, Option.none, Option.none⟩ 0).msg.text
      ("(尝试 3/3)") = true := by
  refine ⟨?_, ?_, ?_, ?_, by decide, by decide, by decide⟩ <;>
    simp [autoRepairChain, applyExecResult, MAX_RETRIES, Option.toList]

/-- C4 counterexample: a run that completes without a hard failure and prints a bare
"error occurred" is classified as success by the code, although the claim's keyword set
(which contains the bare word error) would call it a failure. -/
theorem classifier_bare_keyword_counterexample :
    run_python_code [(PyStream.stdout, ("error occurred"))] Option.none =
      Except.ok ("error occurred") ∧
    specSoftFailure ("error occurred") = true := by
  constructor <;> decide

/-- C4 amended: for every run completing without a hard interpreter failure, the
outcome is a failure carrying the captured output exactly when the lowercased captured
output contains one of the nine code keywords (error:, exception:, traceback (most,
failed to, attributeerror, keyerror, valueerror, not found, the failure glyph), and a
success carrying the captured output otherwise; in particular an output containing
"Traceback (most" anywhere is classified as failure. -/
theorem classifier_soft_failure_amended (writes : List (PyStream × String)) :
    run_python_code writes Option.none =
      (if error_keywords.any
          (fun kw => strContains (rustToLowercase (combinedOutput writes)) kw) then
        Except.error (combinedOutput writes)
       else Except.ok (combinedOutput writes)) ∧
    run_python_code [(PyStream.stdout, ("xx Traceback (most recent call last) yy"))]
      Option.none =
      Except.error ("xx Traceback (most recent call last) yy") := by
  constructor
  · have h := runCaptures_spec writes
    have hcond : (!(rustTrim ("")).isEmpty && stderrHasKeyword ("")) = false := by
      decide
    simp only [run_python_code, h.1, h.2, classifyRun, hcond, Bool.false_eq_true,
      if_false, scanStdout]
  · decide

/-- C5 counterexample: when the batch restore fails, the target operation is still set
to Undone (the claim says a failed restore must not mark the target Undone). -/
theorem undo_error_target_still_undone_counterexample :
    ((on_undo [⟨0, (""), ActionStatus.success, Option.none,
        Option.some [(("o"), ("b"))]⟩] 0
      (Except.error ("boom"))).1.get? 0).map (fun m => m.status) =
      Option.some ActionStatus.undone := by
  rfl

/-- C5 amended: whenever the target held snapshot pairs and was Success or Running, the
undo sets it Undone regardless of whether the restore succeeded or failed; the restore
log is appended on success and the restore diagnostic is appended on failure. -/
theorem undo_target_undone_with_diagnostic
    (msgs : List ChatMessage) (target : Nat) (res : Except String String)
    (pairs : List (String × String)) (m : ChatMessage)
    (hm : msgs.get? target = Option.some m) (hb : m.backup_paths = Option.some pairs)
    (hc : isCascadable m.status = true) :
    (on_undo msgs target res).1.get? target =
      Option.some
        { m with
            status := ActionStatus.undone,
            text := m.text ++
              (match res with
               | Except.ok log => ("\n\n") ++ log
               | Except.error e => ("\n❌ 撤销出错: ") ++ e) } := by
  have hbind : (msgs.get? target).bind (fun m0 => m0.backup_paths) =
      Option.some pairs := by
    rw [hm]; simpa using hb
  unfold on_undo
  rw [hbind]
  show (cascadeFrom target res 0 msgs).get? target = _
  rw [get?_cascadeFrom, hm]
  show Option.some (undoTransform target res (0 + target) m) = _
  congr 1
  simp only [undoTransform, Nat.zero_add]
  rw [if_pos ⟨Nat.le_refl target, hc⟩]
  simp

/-- C5 witness: a Success record with one pair, failed restore; Undone plus appended
diagnostic. -/
theorem undo_target_undone_with_diagnostic_witness :
    (([⟨0, ("t"), ActionStatus.success, Option.none, Option.some [(("o"), ("b"))]⟩] :
        List ChatMessage).get? 0 =
      Option.some ⟨0, ("t"), ActionStatus.success, Option.none,
        Option.some [(("o"), ("b"))]⟩) ∧
    isCascadable ActionStatus.success = true ∧
    (on_undo [⟨0, ("t"), ActionStatus.success, Option.none, Option.some [(("o"), ("b"))]⟩]
        0 (Except.error ("boom"))).1.get? 0 =
      Option.some ⟨0, ("t") ++ (("\n❌ 撤销出错: ") ++ ("boom")), ActionStatus.undone,
        Option.none, Option.some [(("o"), ("b"))]⟩ := by
  refine ⟨rfl, rfl, ?_⟩
  exact undo_target_undone_with_diagnostic
    [⟨0, ("t"), ActionStatus.success, Option.none, Option.some [(("o"), ("b"))]⟩] 0
    (Except.error ("boom")) [(("o"), ("b"))]
    ⟨0, ("t"), ActionStatus.success, Option.none, Option.some [(("o"), ("b"))]⟩
    rfl rfl rfl

/-- C6 counterexample: calling on_undo on a record that is already Undone but still
holds its snapshot pairs is not a no-op: the restore is invoked again on those pairs
and a later Success record is cascaded to Undone; moreover no "nothing to restore"
report exists anywhere in the callback. -/
theorem undo_on_undone_counterexample :
    (on_undo [⟨0, ("t0"), ActionStatus.undone, Option.none, Option.some [(("o"), ("b"))]⟩,
              ⟨1, ("t1"), ActionStatus.success, Option.none, Option.none⟩] 0
      (Except.ok ("L"))).2 = Option.some [(("o"), ("b"))] ∧
    ((on_undo [⟨0, ("t0"), ActionStatus.undone, Option.none, Option.some [(("o"), ("b"))]⟩,
              ⟨1, ("t1"), ActionStatus.success, Option.none, Option.none⟩] 0
      (Except.ok ("L"))).1.get? 1).map (fun m => m.status) =
      Option.some ActionStatus.undone := by
  constructor <;> rfl

/-- C6 amended: undo on a record with an absent snapshot set is a complete and silent
no-op (no restore, no change, and no report of any kind); the UI exposes no undo action
on an already-Undone record; and a direct on_undo call on an Undone record leaves that
record itself unchanged, whatever else it re-runs. -/
theorem undo_guard_amended
    (msgs : List ChatMessage) (target : Nat) (res : Except String String)
    (m : ChatMessage) (hm : msgs.get? target = Option.some m) :
    (m.backup_paths = Option.none → on_undo msgs target res = (msgs, Option.none)) ∧
    (m.status = ActionStatus.undone → showsUndoButton m = false) ∧
    (m.status = ActionStatus.undone →
      (on_undo msgs target res).1.get? target = Option.some m) := by
  refine ⟨?_, ?_, ?_⟩
  · intro hbp
    have hbind : (msgs.get? target).bind (fun m0 => m0.backup_paths) = Option.none := by
      rw [hm]; simpa using hbp
    unfold on_undo
    rw [hbind]
  · intro hstatus
    simp [showsUndoButton, hstatus]
  · intro hstatus
    cases hbp : m.backup_paths with
    | none =>
        have hbind : (msgs.get? target).bind (fun m0 => m0.backup_paths) =
            Option.none := by
          rw [hm]; simpa using hbp
        unfold on_undo
        rw [hbind]
        exact hm
    | some pairs =>
        have hbind : (msgs.get? target).bind (fun m0 => m0.backup_paths) =
            Option.some pairs := by
          rw [hm]; simpa using hbp
        unfold on_undo
        rw [hbind]
        show (cascadeFrom target res 0 msgs).get? target = _
        rw [get?_cascadeFrom, hm]
        show Option.some (undoTransform target res (0 + target) m) = _
        congr 1
        simp [undoTransform, hstatus, isCascadable]

/-- C6 witness: a lone Undone record without snapshots; undo is a silent no-op and the
UI offers no undo action. -/
theorem undo_guard_amended_witness :
    (([⟨0, ("t"), ActionStatus.undone, Option.none, Option.none⟩] :
        List ChatMessage).get? 0 =
      Option.some ⟨0, ("t"), ActionStatus.undone, Option.none, Option.none⟩) ∧
    on_undo [⟨0, ("t"), ActionStatus.undone, Option.none, Option.none⟩] 0
        (Except.ok ("L")) =
      ([⟨0, ("t"), ActionStatus.undone, Option.none, Option.none⟩], Option.none) ∧
    showsUndoButton ⟨0, ("t"), ActionStatus.undone, Option.none, Option.none⟩ = false := by
  have h := undo_guard_amended
    [⟨0, ("t"), ActionStatus.undone, Option.none, Option.none⟩] 0 (Except.ok ("L"))
    ⟨0, ("t"), ActionStatus.undone, Option.none, Option.none⟩ rfl
  exact ⟨rfl, h.1 rfl, h.2.1 rfl⟩

/-- C7 counterexample: two distinct original paths sharing a file name, snapshotted in
one batch (one shared timestamp), receive the identical backup path. -/
theorem backup_collision_counterexample :
    ("/a/data.xlsx") ≠ ("/b/data.xlsx") ∧
    (create_batch_backups ("backups") 45 [("/a/data.xlsx"), ("/b/data.xlsx")]
        (fun _ => true)).map Prod.snd =
      [("backups/data.xlsx.45.bak"), ("backups/data.xlsx.45.bak")] := by
  constructor
  · decide
  · rfl

/-- C7 amended: backup paths are distinct whenever the original file NAMES differ
within one batch (same timestamp), and whenever the capture timestamps differ for the
same original across batches; originals sharing a file name inside one batch collide,
as the counterexample shows. -/
theorem backup_paths_distinct_amended
    (dir p1 p2 p : String) (ts ts1 ts2 : Nat)
    (hname : fileName p1 ≠ fileName p2) (hts : ts1 ≠ ts2) :
    backup_path dir p1 ts ≠ backup_path dir p2 ts ∧
    backup_path dir p ts1 ≠ backup_path dir p ts2 := by
  constructor
  · intro h
    apply hname
    simp only [backup_path, backup_filename] at h
    have h1 := string_append_left_cancel _ _ _ h
    have h2 := string_append_right_cancel _ _ ((".bak")) h1
    have h3 := string_append_right_cancel _ _ (Nat.repr ts) h2
    exact string_append_right_cancel _ _ ((".")) h3
  · intro h
    apply hts
    simp only [backup_path, backup_filename] at h
    have h1 := string_append_left_cancel _ _ _ h
    have h2 := string_append_right_cancel _ _ ((".bak")) h1
    have h3 := string_append_left_cancel _ _ _ h2
    exact natRepr_inj ts1 ts2 h3

/-- C7 witness: distinct names in one batch, and distinct timestamps for one file. -/
theorem backup_paths_distinct_amended_witness :
    fileName ("/a/x.xlsx") ≠ fileName ("/b/y.xlsx") ∧ (1 : Nat) ≠ 2 ∧
    backup_path ("backups") ("/a/x.xlsx") 5 ≠ backup_path ("backups") ("/b/y.xlsx") 5 ∧
    backup_path ("backups") ("/a/x.xlsx") 1 ≠ backup_path ("backups") ("/a/x.xlsx") 2 := by
  have h := backup_paths_distinct_amended ("backups") ("/a/x.xlsx") ("/b/y.xlsx")
    ("/a/x.xlsx") 5 1 2 (by decide) (by decide)
  exact ⟨by decide, by decide, h.1, h.2⟩

/-- A rendered execute button means the record awaits confirmation or is in Error. -/
theorem showsConfirmButton_status (m : ChatMessage) (h : showsConfirmButton m = true) :
    m.status = ActionStatus.waitingConfirmation ∨
      ∃ d, m.status = ActionStatus.error d := by
  cases hs : m.status
  case waitingConfirmation => exact Or.inl rfl
  case error d => exact Or.inr ⟨d, rfl⟩
  all_goals (unfold showsConfirmButton at h; rw [hs] at h; simp at h)

/-- A rendered cancel button means the record awaits confirmation. -/
theorem showsCancelButton_status (m : ChatMessage) (h : showsCancelButton m = true) :
    m.status = ActionStatus.waitingConfirmation := by
  cases hs : m.status
  case waitingConfirmation => rfl
  all_goals (unfold showsCancelButton at h; rw [hs] at h; simp at h)

/-- A rendered undo button means Success with a present snapshot set. -/
theorem showsUndoButton_status (m : ChatMessage) (h : showsUndoButton m = true) :
    m.status = ActionStatus.success ∧ m.backup_paths.isSome = true := by
  cases hs : m.status
  case success =>
    refine ⟨rfl, ?_⟩
    unfold showsUndoButton at h
    rw [hs] at h
    exact h
  all_goals (unfold showsUndoButton at h; rw [hs] at h; simp at h)

/-- Cascadable statuses are exactly Success and Running. -/
theorem isCascadable_status (st : ActionStatus) (h : isCascadable st = true) :
    st = ActionStatus.success ∨ st = ActionStatus.running := by
  cases st <;> simp [isCascadable] at h ⊢

/-- Pending-execution statuses are exactly Running and Undone. -/
theorem statusPendingOk_status (st : ActionStatus) (h : statusPendingOk st = true) :
    st = ActionStatus.running ∨ st = ActionStatus.undone := by
  cases st <;> simp [statusPendingOk] at h ⊢

/-- The status written by the execution-result phase is Success on Ok and Error with
the diagnostic on Err, whatever the retry counter. -/
theorem applyExecResult_status (m : ChatMessage) (rc : Nat) :
    ∀ res, (applyExecResult m rc res).msg.status =
      (match res with
       | Except.ok _ => ActionStatus.success
       | Except.error d => ActionStatus.error d)
  | Except.ok out => rfl
  | Except.error d => by
      simp only [applyExecResult]
      by_cases h : rc < MAX_RETRIES <;> simp [h]

/-- C8 counterexample: with operation 0 Success (undo exposed) and operation 1 Running
with an in-flight execution, firing the exposed undo cascades operation 1 from Running
to Undone, a status change that is not an edge of the section 4.5 state machine. -/
theorem cascade_running_not_spec_edge_counterexample :
    pendingOk ⟨[⟨0, (""), ActionStatus.success, Option.none, Option.some [(("o"), ("b"))]⟩,
                ⟨1, (""), ActionStatus.running, Option.none, Option.none⟩], 0, [1]⟩ = true ∧
    enabledE ⟨[⟨0, (""), ActionStatus.success, Option.none, Option.some [(("o"), ("b"))]⟩,
               ⟨1, (""), ActionStatus.running, Option.none, Option.none⟩], 0, [1]⟩
      (Event.undo 0 (Except.ok ("L"))) = true ∧
    (([⟨0, (""), ActionStatus.success, Option.none, Option.some [(("o"), ("b"))]⟩,
       ⟨1, (""), ActionStatus.running, Option.none, Option.none⟩] :
        List ChatMessage).get? 1).map (fun m => m.status) =
      Option.some ActionStatus.running ∧
    ((stepEvent ⟨[⟨0, (""), ActionStatus.success, Option.none, Option.some [(("o"), ("b"))]⟩,
                  ⟨1, (""), ActionStatus.running, Option.none, Option.none⟩], 0, [1]⟩
        (Event.undo 0 (Except.ok ("L")))).messages.get? 1).map (fun m => m.status) =
      Option.some ActionStatus.undone ∧
    specEdge ActionStatus.running ActionStatus.undone = false := by
  refine ⟨rfl, rfl, rfl, rfl, rfl⟩

/-- C8 amended: through the exposed callbacks, every status change follows an edge of
the section 4.5 machine EXTENDED with cascade invalidation of a Running record
(Running to Undone) and late completion of an execution whose record was cascaded
mid-run (Undone to Success or Error); and a transition into Cancelled still happens
only from the awaiting-confirmation state. -/
theorem exposed_transitions_follow_code_edges
    (s : AppState) (e : Event) (j : Nat) (m m2 : ChatMessage)
    (hp : pendingOk s = true) (he : enabledE s e = true)
    (hm : s.messages.get? j = Option.some m)
    (hm2 : (stepEvent s e).messages.get? j = Option.some m2) :
    (m2.status = m.status ∨ codeEdge m.status m2.status = true) ∧
    (m2.status = ActionStatus.cancelled →
      m.status = ActionStatus.cancelled ∨
        m.status = ActionStatus.waitingConfirmation) := by
  cases e with
  | confirm i manual =>
      cases hmi : s.messages.get? i with
      | none =>
          simp only [enabledE, hmi] at he
          exact Bool.noConfusion he
      | some mi =>
          simp only [enabledE, hmi] at he
          simp only [stepEvent, hmi] at hm2
          by_cases hpc : mi.pending_code.isSome = true
          · rw [if_pos hpc] at hm2
            simp only at hm2
            rw [get?_updateAt] at hm2
            by_cases hij : i = j
            · rw [if_pos hij, hm] at hm2
              have hmmi : mi = m := by
                rw [hij, hm] at hmi
                injection hmi with hv
                exact hv.symm
              have hm2eq : m2 = { m with status := ActionStatus.running } := by
                simpa using hm2.symm
              subst hmmi
              rcases showsConfirmButton_status mi he with hw | ⟨d, hd⟩
              · constructor
                · right
                  rw [hw, hm2eq]
                  rfl
                · intro hx
                  rw [hm2eq] at hx
                  simp at hx
              · constructor
                · right
                  rw [hd, hm2eq]
                  rfl
                · intro hx
                  rw [hm2eq] at hx
                  simp at hx
            · rw [if_neg hij, hm] at hm2
              have hm2eq : m2 = m := by
                injection hm2 with hv
                exact hv.symm
              subst hm2eq
              exact ⟨Or.inl rfl, fun hx => Or.inl hx⟩
          · rw [if_neg hpc] at hm2
            simp only at hm2
            rw [hm] at hm2
            have hm2eq : m2 = m := by
              injection hm2 with hv
              exact hv.symm
            subst hm2eq
            exact ⟨Or.inl rfl, fun hx => Or.inl hx⟩
  | cancel i =>
      cases hmi : s.messages.get? i with
      | none =>
          simp only [enabledE, hmi] at he
          exact Bool.noConfusion he
      | some mi =>
          simp only [enabledE, hmi] at he
          have hw := showsCancelButton_status mi he
          simp only [stepEvent, on_cancel] at hm2
          rw [get?_updateAt] at hm2
          by_cases hij : i = j
          · rw [if_pos hij, hm] at hm2
            have hmmi : mi = m := by
              rw [hij, hm] at hmi
              injection hmi with hv
              exact hv.symm
            have hm2eq : m2 = { m with
                status := ActionStatus.cancelled,
                pending_code := Option.none } := by
              injection hm2 with hv
              exact hv.symm
            subst hmmi
            constructor
            · right
              rw [hw, hm2eq]
              rfl
            · intro hx
              exact Or.inr hw
          · rw [if_neg hij, hm] at hm2
            have hm2eq : m2 = m := by
              injection hm2 with hv
              exact hv.symm
            subst hm2eq
            exact ⟨Or.inl rfl, fun hx => Or.inl hx⟩
  | undo i res =>
      cases hmi : s.messages.get? i with
      | none =>
          simp only [enabledE, hmi] at he
          exact Bool.noConfusion he
      | some mi =>
          simp only [enabledE, hmi] at he
          obtain ⟨hs, hbp⟩ := showsUndoButton_status mi he
          rw [Option.isSome_iff_exists] at hbp
          obtain ⟨pairs, hbp⟩ := hbp
          have hbind : (s.messages.get? i).bind (fun m0 => m0.backup_paths) =
              Option.some pairs := by
            rw [hmi]; simpa using hbp
          simp only [stepEvent] at hm2
          unfold on_undo at hm2
          rw [hbind] at hm2
          simp only at hm2
          rw [get?_cascadeFrom, hm] at hm2
          have hm2eq : m2 = undoTransform i res (0 + j) m := by
            injection hm2 with hv
            exact hv.symm
          subst hm2eq
          unfold undoTransform
          by_cases hc : i ≤ 0 + j ∧ isCascadable m.status = true
          · rw [if_pos hc]
            rcases isCascadable_status m.status hc.2 with hsm | hsm
            · constructor
              · right
                rw [hsm]
                rfl
              · intro hx
                simp at hx
            · constructor
              · right
                rw [hsm]
                rfl
              · intro hx
                simp at hx
          · rw [if_neg hc]
            exact ⟨Or.inl rfl, fun hx => Or.inl hx⟩
  | complete i res =>
      simp only [enabledE] at he
      have hmem : i ∈ s.pendingExec := by
        simpa using he
      have hall : ∀ x, x ∈ s.pendingExec →
          (match s.messages.get? x with
           | Option.some m0 => statusPendingOk m0.status
           | Option.none => false) = true := by
        simpa [pendingOk] using hp
      have hpi := hall i hmem
      cases hmi : s.messages.get? i with
      | none =>
          rw [hmi] at hpi
          simp at hpi
      | some mi =>
          rw [hmi] at hpi
          simp only at hpi
          have hsm := statusPendingOk_status mi.status hpi
          simp only [stepEvent, hmi] at hm2
          rw [get?_updateAt] at hm2
          by_cases hij : i = j
          · rw [if_pos hij, hm] at hm2
            have hmmi : mi = m := by
              rw [hij, hm] at hmi
              injection hmi with hv
              exact hv.symm
            subst hmmi
            have hm2eq : m2 = (applyExecResult mi s.retry_count res).msg := by
              injection hm2 with hv
              exact hv.symm
            rw [hm2eq]
            cases res with
            | ok out =>
                have hst := applyExecResult_status mi s.retry_count (Except.ok out)
                rw [hst]
                rcases hsm with h1 | h1
                · exact ⟨Or.inr (by rw [h1]; rfl),
                    fun hx => absurd hx (by simp)⟩
                · exact ⟨Or.inr (by rw [h1]; rfl),
                    fun hx => absurd hx (by simp)⟩
            | error d =>
                have hst := applyExecResult_status mi s.retry_count (Except.error d)
                rw [hst]
                rcases hsm with h1 | h1
                · exact ⟨Or.inr (by rw [h1]; rfl),
                    fun hx => absurd hx (by simp)⟩
                · exact ⟨Or.inr (by rw [h1]; rfl),
                    fun hx => absurd hx (by simp)⟩
          · rw [if_neg hij, hm] at hm2
            have hm2eq : m2 = m := by
              injection hm2 with hv
              exact hv.symm
            subst hm2eq
            exact ⟨Or.inl rfl, fun hx => Or.inl hx⟩

/-- C8 amended witness: cancelling a record that awaits confirmation. -/
theorem exposed_transitions_follow_code_edges_witness :
    pendingOk ⟨[⟨0, (""), ActionStatus.waitingConfirmation, Option.some ("code"),
      Option.none⟩], 0, []⟩ = true ∧
    enabledE ⟨[⟨0, (""), ActionStatus.waitingConfirmation, Option.some ("code"),
      Option.none⟩], 0, []⟩ (Event.cancel 0) = true ∧
    (([⟨0, (""), ActionStatus.waitingConfirmation, Option.some ("code"), Option.none⟩] :
        List ChatMessage).get? 0 =
      Option.some ⟨0, (""), ActionStatus.waitingConfirmation, Option.some ("code"),
        Option.none⟩) ∧
    ((stepEvent ⟨[⟨0, (""), ActionStatus.waitingConfirmation, Option.some ("code"),
        Option.none⟩], 0, []⟩ (Event.cancel 0)).messages.get? 0 =
      Option.some ⟨0, (""), ActionStatus.cancelled, Option.none, Option.none⟩) ∧
    ((⟨0, (""), ActionStatus.cancelled, Option.none, Option.none⟩ : ChatMessage).status =
        (⟨0, (""), ActionStatus.waitingConfirmation, Option.some ("code"),
          Option.none⟩ : ChatMessage).status ∨
      codeEdge (⟨0, (""), ActionStatus.waitingConfirmation, Option.some ("code"),
          Option.none⟩ : ChatMessage).status
        (⟨0, (""), ActionStatus.cancelled, Option.none, Option.none⟩ :
          ChatMessage).status = true) := by
  refine ⟨rfl, rfl, rfl, rfl, ?_⟩
  exact (exposed_transitions_follow_code_edges
    ⟨[⟨0, (""), ActionStatus.waitingConfirmation, Option.some ("code"), Option.none⟩],
      0, []⟩
    (Event.cancel 0) 0
    ⟨0, (""), ActionStatus.waitingConfirmation, Option.some ("code"), Option.none⟩
    ⟨0, (""), ActionStatus.cancelled, Option.none, Option.none⟩
    rfl rfl rfl rfl).1

/-- C9: since run_python_code rebinds both streams to the stdout capture, the stderr
capture always reads back empty, everything written on either stream lands in the
stdout buffer, classification is therefore a function of the combined output alone, and
for runs without a hard failure the stderr-keyword branch is dead: the result is
exactly the stdout keyword scan of the combined output. -/
theorem stderr_capture_reads_back_empty (writes : List (PyStream × String))
    (runErr : Option String) :
    (runCaptures writes).stderr_capture = ("") ∧
    (runCaptures writes).stdout_capture = combinedOutput writes ∧
    run_python_code writes runErr = classifyRun runErr (combinedOutput writes) ("") ∧
    run_python_code writes Option.none = scanStdout (combinedOutput writes) := by
  have h := runCaptures_spec writes
  refine ⟨h.1, h.2, ?_, ?_⟩
  · rw [run_python_code, h.1, h.2]
  · rw [run_python_code, h.1, h.2]
    show classifyRun Option.none _ ("") = _
    simp only [classifyRun]
    have hcond : (!(rustTrim ("")).isEmpty && stderrHasKeyword ("")) = false := by decide
    rw [hcond]
    simp

/-- C10: the stored backup_paths is never Some of an empty list (the backup phase keeps
the prior value when the batch comes back empty); when every file's snapshot attempt
fails the record keeps no snapshot set at all; and a record without backup_paths never
exposes the undo button. -/
theorem backup_paths_none_or_nonempty
    (prior : Option (List (String × String))) (files : List String) (dir : String)
    (ts : Nat) (ok : String → Bool) (m : ChatMessage)
    (hprior : ∀ l, prior = Option.some l → l ≠ []) :
    (∀ l, (on_confirm_backup prior files dir ts ok).1 = Option.some l → l ≠ []) ∧
    ((∀ p, p ∈ files → ok p = false) →
      (on_confirm_backup Option.none files dir ts ok).1 = Option.none) ∧
    (m.backup_paths = Option.none → showsUndoButton m = false) := by
  refine ⟨?_, ?_, ?_⟩
  · intro l hl
    by_cases hp : prior.isSome = true
    · simp only [on_confirm_backup, hp, if_true] at hl
      exact hprior l hl
    · by_cases hb : (if files.isEmpty then []
          else create_batch_backups dir ts files ok).isEmpty = true
      · simp only [on_confirm_backup, hp, if_false, Bool.false_eq_true, hb,
          if_true] at hl
        exact hprior l hl
      · simp only [on_confirm_backup, hp, if_false, Bool.false_eq_true, hb,
          Option.some.injEq] at hl
        intro hnil
        rw [hnil] at hl
        rw [hl] at hb
        exact hb rfl
  · intro hfail
    have hnil : create_batch_backups dir ts files ok = [] := by
      simp only [create_batch_backups, List.filterMap_eq_nil_iff]
      intro p hp2
      rw [hfail p hp2]
      simp
    simp [on_confirm_backup, hnil]
  · intro hbp
    cases hs : m.status <;> simp [showsUndoButton, hs, hbp]

/-- C10 witness: a non-empty stored pair list stays non-empty; with every snapshot
failing nothing is stored; a Success record without snapshots shows no undo button. -/
theorem backup_paths_none_or_nonempty_witness :
    ¬ ((on_confirm_backup (Option.some [(("o"), ("b"))]) [("f")] ("backups") 3
        (fun _ => false)).1 = Option.some ([] : List (String × String))) ∧
    (on_confirm_backup Option.none [("f")] ("backups") 3 (fun _ => false)).1 =
      Option.none ∧
    showsUndoButton ⟨0, (""), ActionStatus.success, Option.none, Option.none⟩ = false := by
  have h := backup_paths_none_or_nonempty (Option.some [(("o"), ("b"))]) [("f")]
    ("backups") 3 (fun _ => false)
    ⟨0, (""), ActionStatus.success, Option.none, Option.none⟩
    (fun l hl => by
      injection hl with hv
      rw [← hv]
      decide)
  exact ⟨fun hc => (h.1 [] hc) rfl, h.2.1 (fun p hp => rfl), h.2.2 rfl⟩
